import Mathlib

/-!
Verification of the two Overture sample-config skill scripts:
`analyzer.py` (placeholder static analysis) and `test-generator.py`
(test-stub generation).  Python strings are embedded as `List Char`;
filesystem queries and `ast.parse` results are taken as explicit inputs.
-/

namespace Overture

/-- Boolean test that `p` is a leading segment of `l`
(embeds Python's `str.startswith`). -/
def hasPfx : List Char → List Char → Bool
  | [], _ => true
  | _ :: _, [] => false
  | p :: ps, c :: cs => p == c && hasPfx ps cs

/-- True when the character list contains no double-quote character. -/
def quoteFree (l : List Char) : Bool := !(l.contains '"')

/-- True when the character list contains no backslash character. -/
def bslashFree (l : List Char) : Bool := !(l.contains '\\')

/-- True when the character list contains no newline character. -/
def nlFree (l : List Char) : Bool := !(l.contains '\n')

/-! ## Analyzer (`analyzer.py`) -/

/-- One per-file metrics record, as built by `analyze_file` in `analyzer.py`. -/
structure AnalysisRecord where
  file : String
  lines_of_code : Nat
  cyclomatic_complexity : Nat
  issues : List String

/-- `analyze_file` from `analyzer.py` (lines 12-20): the placeholder record. -/
def analyze_file (filepath : String) : AnalysisRecord :=
  { file := filepath
    lines_of_code := 0
    cyclomatic_complexity := 0
    issues := [] }

/-- Abstract filesystem: `Path.is_file`, `Path.is_dir`, and the enumeration
produced by `Path.rglob` with the source-file pattern `*.py` (the list of
matching files under the directory, in enumeration order). -/
structure FileSystem where
  isFile : String → Bool
  isDir : String → Bool
  rglobPy : String → List String

/-- The file/directory branching of `main` in `analyzer.py` (lines 32-36). -/
def analyzeTarget (fs : FileSystem) (target : String) : List AnalysisRecord :=
  if fs.isFile target then [analyze_file target]
  else if fs.isDir target then (fs.rglobPy target).map analyze_file
  else []

/-- `main` of `analyzer.py`: returns the produced records and the exit code.
With fewer than two argv entries it prints usage and exits 1; otherwise it
serializes the records and exits 0. -/
def analyzerMain (fs : FileSystem) (argv : List String) : List AnalysisRecord × Nat :=
  match argv with
  | _ :: target :: _ => (analyzeTarget fs target, 0)
  | _ => ([], 1)

/-! ## TestGenerator (`test-generator.py`) -/

/-- The nested `config["generation"]` flags read by `_generate_test_cases`. -/
structure GenerationConfig where
  include_edge_cases : Bool
  include_error_cases : Bool

/-- One `ast.FunctionDef` node as consumed by the generator: name,
positional parameter names, declaration line. -/
structure FunctionDef where
  name : List Char
  args : List (List Char)
  lineno : Nat

/-- One generated test case: `{"name": ..., "description": ...}`. -/
structure TestCase where
  name : List Char
  description : List Char

/-- The metadata dict built by `analyze_function`. -/
structure FunctionMetadata where
  name : List Char
  args : List (List Char)
  line_number : Nat
  test_cases : List TestCase

def tPre : List Char := ("test_").toList

def basicSfx : List Char := ("_basic").toList

def edgeSfx : List Char := ("_edge_cases").toList

def errorSfx : List Char := ("_error_handling").toList

/-- The unconditional basic test case of `_generate_test_cases`. -/
def basicCase (f : FunctionDef) : TestCase :=
  ⟨tPre ++ f.name ++ basicSfx, ("Basic functionality test").toList⟩

/-- The edge-case test case of `_generate_test_cases`. -/
def edgeCase (f : FunctionDef) : TestCase :=
  ⟨tPre ++ f.name ++ edgeSfx, ("Edge case handling").toList⟩

/-- The error-handling test case of `_generate_test_cases`. -/
def errorCase (f : FunctionDef) : TestCase :=
  ⟨tPre ++ f.name ++ errorSfx, ("Error handling test").toList⟩

/-- `TestGenerator._generate_test_cases` (lines 28-52): always the basic
case, then the edge case if enabled, then the error case if enabled. -/
def _generate_test_cases (cfg : GenerationConfig) (f : FunctionDef) : List TestCase :=
  ([basicCase f] ++ (if cfg.include_edge_cases then [edgeCase f] else []))
    ++ (if cfg.include_error_cases then [errorCase f] else [])

/-- `TestGenerator.analyze_function` (lines 19-26). -/
def analyze_function (cfg : GenerationConfig) (f : FunctionDef) : FunctionMetadata :=
  { name := f.name
    args := f.args
    line_number := f.lineno
    test_cases := _generate_test_cases cfg f }

def docHeaderPre : List Char := ("\"\"\"Tests for ").toList

def docHeaderPost : List Char := ("\"\"\"\n\n").toList

/-- The document header `f'"""Tests for {source_path.name}"""\n\n'`
(line 62 of `test-generator.py`). -/
def docHeader (sourceName : List Char) : List Char :=
  docHeaderPre ++ sourceName ++ docHeaderPost

/-- The line `test_content += "import pytest\n\n"` (line 63). -/
def importStmt : List Char := ("import pytest\n\n").toList

def defKw : List Char := ("def ").toList

def defLineEnd : List Char := ("():").toList

def renderMid : List Char := ("():\n    \"\"\"").toList

def renderEnd : List Char := ("\"\"\"\n    # TODO: Implement test\n    pass\n\n").toList

/-- The four `test_content +=` lines emitted per test case (lines 68-71). -/
def renderTestCase (tc : TestCase) : List Char :=
  defKw ++ tc.name ++ renderMid ++ tc.description ++ renderEnd

def uScore : List Char := ['_']

/-- `func.name.startswith("_")` (line 66). -/
def isPrivateName (n : List Char) : Bool := hasPfx uScore n

/-- The body of the `for func in functions` loop of `generate_test_file`
(lines 65-71): skip names starting with an underscore, otherwise append the
rendering of every test case of the function's metadata. -/
def gtfStep (cfg : GenerationConfig) (acc : List Char) (f : FunctionDef) : List Char :=
  if isPrivateName f.name then acc
  else ((analyze_function cfg f).test_cases).foldl
    (fun a tc => a ++ renderTestCase tc) acc

/-- `TestGenerator.generate_test_file` (lines 54-74), after a successful
parse: the file read and `ast.parse`/`ast.walk` are abstracted into the
`funcs` input, the list of `FunctionDef` nodes in walk order. -/
def generate_test_file (cfg : GenerationConfig) (sourceName : List Char)
    (funcs : List FunctionDef) : List Char :=
  funcs.foldl (gtfStep cfg) (docHeader sourceName ++ importStmt)

/-- Outcome of `ast.parse` on the source text: `none` is a `SyntaxError`. -/
inductive ParseFailure where
  | syntaxError

/-- `generate_test_file` including the parse step: a `SyntaxError` raised by
`ast.parse` propagates out of the method as a fatal error. -/
def generate_test_fileE (cfg : GenerationConfig) (sourceName : List Char)
    (parsed : Option (List FunctionDef)) : Except ParseFailure (List Char) :=
  match parsed with
  | none => Except.error ParseFailure.syntaxError
  | some funcs => Except.ok (generate_test_file cfg sourceName funcs)

/-- The hard-coded config built in `main` of `test-generator.py`
(lines 83-88): both flags `True`. -/
def mainConfig : GenerationConfig := ⟨true, true⟩

def usageTG : List Char := ("Usage: test-generator.py <source_file>\n").toList

/-- `main` of `test-generator.py`: returns (stdout text, exit code).  An
uncaught `SyntaxError` aborts the run with a nonzero exit code and nothing
written to standard output. -/
def testGenMain (argv : List String) (sourceName : List Char)
    (parsed : Option (List FunctionDef)) : List Char × Nat :=
  match argv with
  | _ :: _ :: _ =>
    match generate_test_fileE mainConfig sourceName parsed with
    | Except.ok content => (content ++ ['\n'], 0)
    | Except.error _ => ([], 1)
  | _ => (usageTG, 1)

/-! ## State-threaded variants (for the config frame property)

Each operation of `TestGenerator` only ever reads `self.config`; the
state-threaded translation makes the config state explicit so that
"the config mapping is unchanged" is expressible. -/

/-- `_generate_test_cases` with the config state threaded through the two
`self.config.get(...)` reads. -/
def _generate_test_cases_st (cfg : GenerationConfig) (f : FunctionDef) :
    List TestCase × GenerationConfig :=
  let tcs0 := [basicCase f]
  let rd1 := (cfg.include_edge_cases, cfg)
  let tcs1 := if rd1.1 then tcs0 ++ [edgeCase f] else tcs0
  let rd2 := (rd1.2.include_error_cases, rd1.2)
  let tcs2 := if rd2.1 then tcs1 ++ [errorCase f] else tcs1
  (tcs2, rd2.2)

/-- `analyze_function` with the config state threaded through. -/
def analyze_function_st (cfg : GenerationConfig) (f : FunctionDef) :
    FunctionMetadata × GenerationConfig :=
  let r := _generate_test_cases_st cfg f
  (⟨f.name, f.args, f.lineno, r.1⟩, r.2)

/-- The loop body of `generate_test_file` with the config state threaded
through the `analyze_function` call. -/
def gtfStep_st (acc : List Char × GenerationConfig) (f : FunctionDef) :
    List Char × GenerationConfig :=
  if isPrivateName f.name then acc
  else
    let m := analyze_function_st acc.2 f
    ((m.1.test_cases).foldl (fun a tc => a ++ renderTestCase tc) acc.1, m.2)

/-- `generate_test_file` with the config state threaded through every
`analyze_function` call. -/
def generate_test_file_st (cfg : GenerationConfig) (sourceName : List Char)
    (funcs : List FunctionDef) : List Char × GenerationConfig :=
  funcs.foldl gtfStep_st (docHeader sourceName ++ importStmt, cfg)

/-! ## Derived rendering form -/

/-- The functions the generator loop does not skip. -/
def publicFuns (funcs : List FunctionDef) : List FunctionDef :=
  funcs.filter (fun f => !(isPrivateName f.name))

/-- The text one function contributes: its test cases rendered in order. -/
def renderFunction (cfg : GenerationConfig) (f : FunctionDef) : List Char :=
  ((_generate_test_cases cfg f).map renderTestCase).flatten

/-- The text contributed by all non-skipped functions. -/
def pubRender (cfg : GenerationConfig) (funcs : List FunctionDef) : List Char :=
  ((publicFuns funcs).map (renderFunction cfg)).flatten

/-! ## Document observers

To talk about what the generated text "contains", the document is split
into its lines after the leading module docstring (which, being a
triple-quoted literal, may span lines) has been scanned past. -/

/-- Split a character list at newline characters. -/
def splitLines : List Char → List (List Char)
  | [] => [[]]
  | c :: cs =>
    if c == '\n' then [] :: splitLines cs
    else
      match splitLines cs with
      | [] => [[c]]
      | l :: ls => (c :: l) :: ls

/-- Scan forward to the first `"""` and return what follows it (`none` if
the triple quote never occurs): how a triple-quoted string literal is
terminated.  Escape sequences are not modelled; the scan is faithful for
text containing no backslash. -/
def scanClose : List Char → Option (List Char)
  | [] => none
  | c :: cs =>
    if c == '"' && hasPfx ['"', '"'] cs then some (cs.drop 2)
    else scanClose cs

/-- If the line has the shape `def <name>():`, extract the name. -/
def lineStubName (l : List Char) : Option (List Char) :=
  if hasPfx defKw l then
    let r := l.drop 4
    if r.drop (r.length - 3) == defLineEnd then some (r.take (r.length - 3))
    else none
  else none

/-- The names of the test stub functions a generated document contains:
scan past the module docstring, then collect every `def <name>():` line. -/
def docStubNames (doc : List Char) : List (List Char) :=
  let body :=
    match doc with
    | '"' :: '"' :: '"' :: r =>
      match scanClose r with
      | some r2 => r2
      | none => []
    | _ => doc
  (splitLines body).filterMap lineStubName

/-! ## Identifier well-formedness

`ast.parse` only ever yields function names that are identifiers; this is
the invariant carried by parse results in the model (restricted to ASCII
identifiers). -/

/-- First character of an identifier. -/
def identStart (c : Char) : Bool := c.isAlpha || c == '_'

/-- Continuation character of an identifier. -/
def identCont (c : Char) : Bool := c.isAlphanum || c == '_'

/-- ASCII identifier check for function names produced by the parser. -/
def isValidIdent : List Char → Bool
  | [] => false
  | c :: cs => identStart c && cs.all identCont

/-! ## Syntactic validity of the generated document

Modelled from the spec: the round-trip property says "feeding the
generated output back through a syntax parser must succeed".  The syntax
parser (`ast.parse`) is external to the repository, so validity is
modelled as a recognizer for the statement fragment of the target
language that the generator emits: an optional module docstring
expression statement, blank lines, `import` statements, and function
definitions whose body is a nonempty sequence of indented simple
statements (a one-line docstring, a comment, or `pass`).  String escape
sequences are not modelled, so the recognizer is faithful only for
documents containing no backslash inside string literals. -/

/-- Parser mode: at top level, right after a `def` header (an indented
body line is required), or inside a body (indented lines may continue). -/
inductive LMode where
  | top
  | needBody
  | inBody
deriving DecidableEq

def tq : List Char := ['"', '"', '"']

def tFor : List Char := ("Tests for ").toList

def impKw : List Char := ("import ").toList

def impL : List Char := ("import pytest").toList

def sp4 : List Char := ("    ").toList

def sp4q : List Char := ("    \"\"\"").toList

def todoLine : List Char := ("    # TODO: Implement test").toList

def passLine : List Char := ("    pass").toList

/-- A line of the form `import <module>`. -/
def isImportLine (l : List Char) : Bool :=
  hasPfx impKw l && isValidIdent (l.drop 7)

/-- A line of the form `def <identifier>():`. -/
def isDefLine (l : List Char) : Bool :=
  match lineStubName l with
  | some n => isValidIdent n
  | none => false

/-- A complete one-line triple-quoted string literal. -/
def isDocstringLine (s : List Char) : Bool :=
  match s with
  | '"' :: '"' :: '"' :: r => scanClose r == some []
  | _ => false

/-- An indented (four-space) simple statement line: a one-line docstring,
a comment, or `pass`. -/
def isBodyLine (l : List Char) : Bool :=
  hasPfx sp4 l
    && (isDocstringLine (l.drop 4) || hasPfx ['#'] (l.drop 4)
      || l.drop 4 == ("pass").toList)

/-- Classify a line at top level and give the next mode (`none` rejects). -/
def topLine (l : List Char) : Option LMode :=
  if l.isEmpty then some LMode.top
  else if isImportLine l then some LMode.top
  else if isDefLine l then some LMode.needBody
  else none

/-- Line-level acceptance of the statement fragment. -/
def linesOk : LMode → List (List Char) → Bool
  | LMode.needBody, [] => false
  | LMode.top, [] => true
  | LMode.inBody, [] => true
  | LMode.needBody, l :: ls => if isBodyLine l then linesOk LMode.inBody ls else false
  | LMode.inBody, l :: ls =>
    if isBodyLine l then linesOk LMode.inBody ls
    else
      match topLine l with
      | some m => linesOk m ls
      | none => false
  | LMode.top, l :: ls =>
    match topLine l with
    | some m => linesOk m ls
    | none => false

/-- Modelled from the spec: acceptance of a document by the target-language
syntax parser, for the fragment the generator emits.  A document starting
with `"""` must have its module docstring terminated, immediately followed
by a newline (or the end of input); the remainder must be an acceptable
line sequence. -/
def pyFragmentOk (doc : List Char) : Bool :=
  match doc with
  | '"' :: '"' :: '"' :: r =>
    match scanClose r with
    | some [] => true
    | some ('\n' :: rest) => linesOk LMode.top (splitLines rest)
    | _ => false
  | _ => linesOk LMode.top (splitLines doc)

/-! ## Concrete fixtures used by the witness theorems -/

/-- Sample filesystem used to instantiate the analyzer theorems: one plain
file `a.py` and one directory `src` holding two `*.py` files. -/
def fsW : FileSystem :=
  { isFile := fun s => s == "a.py"
    isDir := fun s => s == "src"
    rglobPy := fun s => if s == "src" then ["src/m.py", "src/n.py"] else [] }

/-- Sample parse result: one public function and one private function. -/
def funcsW : List FunctionDef :=
  [⟨("add").toList, [("a").toList, ("b").toList], 1⟩,
    ⟨("_hidden").toList, [], 9⟩]

def nameW : List Char := ("calc.py").toList

theorem foldl_append_join {α : Type} (g : α → List Char) :
    ∀ (l : List α) (acc : List Char),
      l.foldl (fun a x => a ++ g x) acc = acc ++ (l.map g).flatten := by
  intro l
  induction l with
  | nil => intro acc; simp
  | cons x xs ih =>
    intro acc
    simp [List.foldl_cons, ih (acc ++ g x), List.append_assoc]

theorem gtfStep_private (cfg : GenerationConfig) (acc : List Char)
    (f : FunctionDef) (h : isPrivateName f.name = true) :
    gtfStep cfg acc f = acc := by
  simp [gtfStep, h]

theorem gtfStep_public (cfg : GenerationConfig) (acc : List Char)
    (f : FunctionDef) (h : isPrivateName f.name = false) :
    gtfStep cfg acc f = acc ++ renderFunction cfg f := by
  simp [gtfStep, h, foldl_append_join, renderFunction, analyze_function]

theorem gtf_fold_eq (cfg : GenerationConfig) :
    ∀ (funcs : List FunctionDef) (acc : List Char),
      funcs.foldl (gtfStep cfg) acc = acc ++ pubRender cfg funcs := by
  intro funcs
  induction funcs with
  | nil => intro acc; simp [pubRender, publicFuns]
  | cons f fs ih =>
    intro acc
    rw [List.foldl_cons]
    cases h : isPrivateName f.name
    · rw [gtfStep_public cfg acc f h, ih]
      simp [h, pubRender, publicFuns, List.filter_cons, List.append_assoc]
    · rw [gtfStep_private cfg acc f h, ih]
      simp [h, pubRender, publicFuns, List.filter_cons]

/-- Structural form of the generated document: header, import, then the
rendered test cases of the non-skipped functions, in order. -/
theorem gtf_eq (cfg : GenerationConfig) (sourceName : List Char)
    (funcs : List FunctionDef) :
    generate_test_file cfg sourceName funcs
      = docHeader sourceName ++ importStmt ++ pubRender cfg funcs := by
  simp [generate_test_file, gtf_fold_eq, List.append_assoc]

theorem publicFuns_idem (funcs : List FunctionDef) :
    publicFuns (publicFuns funcs) = publicFuns funcs := by
  simp [publicFuns, List.filter_filter]

/-! ## Claim theorems: Analyzer -/

/-- Claim C4: `analyze_file` returns a record whose `file` field is the
given path and whose metric fields are the fixed placeholder values
(0, 0, empty issue list), for every input path. -/
theorem analyze_file_all_zero (fp : String) :
    (analyze_file fp).file = fp
      ∧ (analyze_file fp).lines_of_code = 0
      ∧ (analyze_file fp).cyclomatic_complexity = 0
      ∧ (analyze_file fp).issues = [] :=
  ⟨rfl, rfl, rfl, rfl⟩

/-- Claim C3: on an existing single file the analyzer produces exactly one
record; on a directory (that is not a file) it produces one record per
`*.py` match of the recursive glob, so the record count equals the number
of matching files. -/
theorem analyzer_record_counts (fs : FileSystem) (target : String) :
    (fs.isFile target = true →
      analyzeTarget fs target = [analyze_file target]
        ∧ (analyzeTarget fs target).length = 1)
    ∧ (fs.isFile target = false → fs.isDir target = true →
      analyzeTarget fs target = (fs.rglobPy target).map analyze_file
        ∧ (analyzeTarget fs target).length = (fs.rglobPy target).length) := by
  constructor
  · intro h
    simp [analyzeTarget, h]
  · intro h1 h2
    simp [analyzeTarget, h1, h2]

/-- Witness for C3 at a concrete filesystem: the single-file branch and the
directory branch both instantiated. -/
theorem analyzer_record_counts_check :
    (analyzeTarget fsW "a.py" = [analyze_file "a.py"]
        ∧ (analyzeTarget fsW "a.py").length = 1)
      ∧ (analyzeTarget fsW "src" = (fsW.rglobPy "src").map analyze_file
        ∧ (analyzeTarget fsW "src").length = (fsW.rglobPy "src").length) :=
  ⟨(analyzer_record_counts fsW "a.py").1 (by decide),
    (analyzer_record_counts fsW "src").2 (by decide) (by decide)⟩

/-- Claim C5: a path that is neither an existing file nor an existing
directory yields an empty record list and exit status 0. -/
theorem nonexistent_path_empty (fs : FileSystem) (prog p : String)
    (h1 : fs.isFile p = false) (h2 : fs.isDir p = false) :
    analyzerMain fs [prog, p] = ([], 0) := by
  simp [analyzerMain, analyzeTarget, h1, h2]

/-- Witness for C5 at a concrete filesystem and path. -/
theorem nonexistent_path_empty_check :
    fsW.isFile "missing.py" = false ∧ fsW.isDir "missing.py" = false
      ∧ analyzerMain fsW ["analyzer", "missing.py"] = ([], 0) :=
  ⟨by decide, by decide,
    nonexistent_path_empty fsW "analyzer" "missing.py" (by decide) (by decide)⟩

/-! ## Claim theorems: TestGenerator, structural -/

/-- Claim C8: the generated document is the header docstring naming the
source file, then the `import pytest` statement, then one rendered empty
test function per test case, in function-discovery order, with each
function's cases in the fixed order basic, then edge (if enabled), then
error handling (if enabled). -/
theorem generated_document_layout (cfg : GenerationConfig)
    (sourceName : List Char) (funcs : List FunctionDef) :
    generate_test_file cfg sourceName funcs
      = docHeader sourceName ++ importStmt
        ++ ((publicFuns funcs).map (fun f =>
          ((([basicCase f]
            ++ (if cfg.include_edge_cases then [edgeCase f] else []))
            ++ (if cfg.include_error_cases then [errorCase f] else [])).map
              renderTestCase).flatten)).flatten := by
  rw [gtf_eq]
  rfl

/-- Claim C2: functions whose name starts with an underscore contribute
nothing to the output (the document equals the one generated from the
non-underscore functions alone), and a file with only underscore-prefixed
functions yields exactly the header and import with zero test functions. -/
theorem private_functions_skipped (cfg : GenerationConfig)
    (sourceName : List Char) (funcs : List FunctionDef) :
    generate_test_file cfg sourceName funcs
        = generate_test_file cfg sourceName (publicFuns funcs)
      ∧ ((∀ f ∈ funcs, isPrivateName f.name = true) →
        generate_test_file cfg sourceName funcs
          = docHeader sourceName ++ importStmt) := by
  constructor
  · rw [gtf_eq, gtf_eq, pubRender, pubRender, publicFuns_idem]
  · intro h
    rw [gtf_eq]
    have hnil : publicFuns funcs = [] := by
      simp only [publicFuns, List.filter_eq_nil_iff]
      intro f hf
      simp [h f hf]
    simp [pubRender, hnil]

/-- Witness for C2: a file whose only function is `_helper`. -/
theorem private_functions_skipped_check :
    generate_test_file mainConfig (("helpers.py").toList)
        [⟨("_helper").toList, [], 1⟩]
      = generate_test_file mainConfig (("helpers.py").toList)
        (publicFuns [⟨("_helper").toList, [], 1⟩])
    ∧ generate_test_file mainConfig (("helpers.py").toList)
        [⟨("_helper").toList, [], 1⟩]
      = docHeader (("helpers.py").toList) ++ importStmt :=
  ⟨(private_functions_skipped mainConfig (("helpers.py").toList)
      [⟨("_helper").toList, [], 1⟩]).1,
    (private_functions_skipped mainConfig (("helpers.py").toList)
      [⟨("_helper").toList, [], 1⟩]).2 (by decide)⟩

/-- Claim C10: every generated document begins with the header docstring
naming the source file followed by the import statement, and when no
public function is discovered the output is exactly that header and
import, with zero test functions. -/
theorem output_header_and_minimal (cfg : GenerationConfig)
    (sourceName : List Char) (funcs : List FunctionDef) :
    (∃ rest, generate_test_file cfg sourceName funcs
        = docHeader sourceName ++ importStmt ++ rest)
      ∧ (publicFuns funcs = [] →
        generate_test_file cfg sourceName funcs
          = docHeader sourceName ++ importStmt) := by
  constructor
  · exact ⟨pubRender cfg funcs, gtf_eq cfg sourceName funcs⟩
  · intro h
    rw [gtf_eq]
    simp [pubRender, h]

/-- Witness for C10: the empty source file. -/
theorem output_header_and_minimal_check :
    (∃ rest, generate_test_file mainConfig (("empty.py").toList) []
        = docHeader (("empty.py").toList) ++ importStmt ++ rest)
      ∧ generate_test_file mainConfig (("empty.py").toList) []
        = docHeader (("empty.py").toList) ++ importStmt :=
  ⟨(output_header_and_minimal mainConfig (("empty.py").toList) []).1,
    (output_header_and_minimal mainConfig (("empty.py").toList) []).2 rfl⟩

/-! ## Claim theorems: error path and config frame -/

/-- Claim C7: a malformed source (parse failure) makes
`generate_test_file` signal a fatal error; `main` then aborts with a
nonzero exit code and nothing written to standard output. -/
theorem parse_failure_aborts (a b : String) (rest : List String)
    (sourceName : List Char) :
    generate_test_fileE mainConfig sourceName none
        = Except.error ParseFailure.syntaxError
      ∧ testGenMain (a :: b :: rest) sourceName none = ([], 1) :=
  ⟨rfl, rfl⟩

theorem gtc_st_pair (cfg : GenerationConfig) (f : FunctionDef) :
    _generate_test_cases_st cfg f = (_generate_test_cases cfg f, cfg) := by
  cases h1 : cfg.include_edge_cases
    <;> cases h2 : cfg.include_error_cases
    <;> simp [_generate_test_cases_st, _generate_test_cases, h1, h2]

theorem af_st_pair (cfg : GenerationConfig) (f : FunctionDef) :
    analyze_function_st cfg f = (analyze_function cfg f, cfg) := by
  simp [analyze_function_st, analyze_function, gtc_st_pair]

theorem gtfStep_st_pair (cfg : GenerationConfig) (acc : List Char)
    (f : FunctionDef) :
    gtfStep_st (acc, cfg) f = (gtfStep cfg acc f, cfg) := by
  cases h : isPrivateName f.name
    <;> simp [gtfStep_st, gtfStep, h, af_st_pair]

theorem gtf_st_fold (cfg : GenerationConfig) :
    ∀ (funcs : List FunctionDef) (acc : List Char),
      funcs.foldl gtfStep_st (acc, cfg)
        = (funcs.foldl (gtfStep cfg) acc, cfg) := by
  intro funcs
  induction funcs with
  | nil => intro acc; rfl
  | cons f fs ih =>
    intro acc
    rw [List.foldl_cons, List.foldl_cons, gtfStep_st_pair, ih]

/-- Claim C9: no operation of `TestGenerator` mutates the configuration:
the state-threaded translations of `_generate_test_cases`,
`analyze_function` and `generate_test_file` all return the config
unchanged (together with the same results as the direct definitions). -/
theorem config_not_mutated (cfg : GenerationConfig) (f : FunctionDef)
    (sourceName : List Char) (funcs : List FunctionDef) :
    (_generate_test_cases_st cfg f).2 = cfg
      ∧ (analyze_function_st cfg f).2 = cfg
      ∧ generate_test_file_st cfg sourceName funcs
        = (generate_test_file cfg sourceName funcs, cfg) := by
  refine ⟨?_, ?_, ?_⟩
  · rw [gtc_st_pair]
  · rw [af_st_pair]
  · rw [generate_test_file_st, generate_test_file, gtf_st_fold]

/-! ## Scanning and line-splitting lemmas -/

theorem hasPfx_append (p r : List Char) : hasPfx p (p ++ r) = true := by
  induction p with
  | nil => rfl
  | cons c cs ih => simp [hasPfx, ih]

theorem scanClose_append (l r : List Char) (h : ('"') ∉ l) :
    scanClose (l ++ '"' :: '"' :: '"' :: r) = some r := by
  induction l with
  | nil => simp [scanClose, hasPfx]
  | cons c cs ih =>
    have hc : c ≠ '"' := fun hcq => h (hcq ▸ List.mem_cons_self c cs)
    have hcs : ('"') ∉ cs := fun hm => h (List.mem_cons_of_mem c hm)
    simp [scanClose, hc, ih hcs]

theorem splitLines_append (a b : List Char) (h : ('\n') ∉ a) :
    splitLines (a ++ '\n' :: b) = a :: splitLines b := by
  induction a with
  | nil => simp [splitLines]
  | cons c cs ih =>
    have hc : c ≠ '\n' := fun hcq => h (hcq ▸ List.mem_cons_self c cs)
    have hcs : ('\n') ∉ cs := fun hm => h (List.mem_cons_of_mem c hm)
    simp [splitLines, hc, ih hcs]

theorem importStmt_eq : importStmt = impL ++ ['\n', '\n'] := by decide

theorem docHeaderPre_eq : docHeaderPre = tq ++ tFor := by decide

theorem docHeaderPost_eq : docHeaderPost = tq ++ ['\n', '\n'] := by decide

theorem renderMid_eq : renderMid = defLineEnd ++ '\n' :: sp4q := by decide

theorem renderEnd_eq :
    renderEnd = tq ++ '\n' :: (todoLine ++ '\n' :: (passLine ++ ['\n', '\n'])) := by
  decide

theorem defKw_eq : defKw = ['d', 'e', 'f', ' '] := by decide

theorem sp4q_cons : sp4q = ' ' :: ("   \"\"\"").toList := by decide

theorem renderTestCase_decomp (tc : TestCase) (rest : List Char) :
    renderTestCase tc ++ rest
      = (defKw ++ tc.name ++ defLineEnd)
        ++ '\n' :: ((sp4q ++ tc.description ++ tq)
        ++ '\n' :: (todoLine ++ '\n' :: (passLine ++ '\n' :: ('\n' :: rest)))) := by
  simp [renderTestCase, renderMid_eq, renderEnd_eq, List.append_assoc]

theorem splitLines_block (tc : TestCase) (rest : List Char)
    (hn : ('\n') ∉ tc.name) (hd : ('\n') ∉ tc.description) :
    splitLines (renderTestCase tc ++ rest)
      = (defKw ++ tc.name ++ defLineEnd) :: (sp4q ++ tc.description ++ tq)
        :: todoLine :: passLine :: [] :: splitLines rest := by
  have h1 : ('\n') ∉ defKw ++ tc.name ++ defLineEnd := by
    intro hm
    rcases List.mem_append.mp hm with hm1 | hm2
    · rcases List.mem_append.mp hm1 with hm3 | hm4
      · exact absurd hm3 (by decide)
      · exact hn hm4
    · exact absurd hm2 (by decide)
  have h2 : ('\n') ∉ sp4q ++ tc.description ++ tq := by
    intro hm
    rcases List.mem_append.mp hm with hm1 | hm2
    · rcases List.mem_append.mp hm1 with hm3 | hm4
      · exact absurd hm3 (by decide)
      · exact hd hm4
    · exact absurd hm2 (by decide)
  rw [renderTestCase_decomp, splitLines_append _ _ h1, splitLines_append _ _ h2,
    splitLines_append _ _ (by decide), splitLines_append _ _ (by decide)]
  simp [splitLines]

/-! ## Stub-name observer lemmas -/

theorem lineStubName_defLine (n : List Char) :
    lineStubName (defKw ++ n ++ defLineEnd) = some n := by
  have hp : hasPfx defKw (defKw ++ (n ++ defLineEnd)) = true :=
    hasPfx_append defKw (n ++ defLineEnd)
  have hd4 : (defKw ++ (n ++ defLineEnd)).drop 4 = n ++ defLineEnd := by
    rw [show (4 : Nat) = defKw.length from by decide]
    exact List.drop_left defKw (n ++ defLineEnd)
  have hl2 : (n ++ defLineEnd).length - 3 = n.length := by
    simp [defLineEnd]
  simp only [lineStubName, List.append_assoc, hp, if_true, hd4, hl2]
  rw [show (n ++ defLineEnd).drop n.length = defLineEnd from
    List.drop_left n defLineEnd]
  rw [show (n ++ defLineEnd).take n.length = n from List.take_left n defLineEnd]
  simp

theorem lineStubName_space (xs : List Char) : lineStubName (' ' :: xs) = none := by
  have h : hasPfx defKw (' ' :: xs) = false := by
    rw [defKw_eq]
    simp [hasPfx]
  simp [lineStubName, h]

theorem stubNames_block (tc : TestCase) (rest : List Char)
    (hn : ('\n') ∉ tc.name) (hd : ('\n') ∉ tc.description) :
    (splitLines (renderTestCase tc ++ rest)).filterMap lineStubName
      = tc.name :: (splitLines rest).filterMap lineStubName := by
  rw [splitLines_block tc rest hn hd]
  have hA : lineStubName (defKw ++ (tc.name ++ defLineEnd)) = some tc.name := by
    have h := lineStubName_defLine tc.name
    simpa [List.append_assoc] using h
  have hB : lineStubName (sp4q ++ (tc.description ++ tq)) = none := by
    rw [sp4q_cons]
    simp only [List.cons_append]
    exact lineStubName_space _
  simp [List.filterMap_cons, hA, hB,
    (by decide : lineStubName todoLine = none),
    (by decide : lineStubName passLine = none),
    (by decide : lineStubName [] = none)]

theorem doc_decomp (name R : List Char) :
    docHeader name ++ importStmt ++ R
      = '"' :: '"' :: '"'
        :: ((tFor ++ name) ++ '"' :: '"' :: '"'
          :: ('\n' :: '\n' :: (impL ++ '\n' :: ('\n' :: R)))) := by
  rw [docHeader, docHeaderPre_eq, docHeaderPost_eq, importStmt_eq]
  simp [tq, List.append_assoc]

theorem docStubNames_generated (name R : List Char) (hq : ('"') ∉ name) :
    docStubNames (docHeader name ++ importStmt ++ R)
      = (splitLines R).filterMap lineStubName := by
  have hq2 : ('"') ∉ tFor ++ name := by
    intro hm
    rcases List.mem_append.mp hm with hm1 | hm2
    · exact absurd hm1 (by decide)
    · exact hq hm2
  have hsc : scanClose ((tFor ++ name) ++ '"' :: '"' :: '"'
        :: ('\n' :: '\n' :: (impL ++ '\n' :: ('\n' :: R))))
      = some ('\n' :: '\n' :: (impL ++ '\n' :: ('\n' :: R))) :=
    scanClose_append _ _ hq2
  have hsplit : splitLines ('\n' :: '\n' :: (impL ++ '\n' :: ('\n' :: R)))
      = [] :: [] :: impL :: [] :: splitLines R := by
    have e1 := splitLines_append [] ('\n' :: (impL ++ '\n' :: ('\n' :: R)))
      (by simp)
    have e2 := splitLines_append [] (impL ++ '\n' :: ('\n' :: R)) (by simp)
    have e3 := splitLines_append impL ('\n' :: R) (by decide)
    have e4 := splitLines_append [] R (by simp)
    simp only [List.nil_append] at e1 e2 e4
    rw [e1, e2, e3, e4]
  rw [doc_decomp]
  simp only [docStubNames, hsc, hsplit]
  simp [List.filterMap_cons, (by decide : lineStubName [] = none),
    (by decide : lineStubName impL = none)]

/-! ## Identifier lemmas -/

theorem valid_no_mem (n : List Char) (h : isValidIdent n = true) (c : Char)
    (h1 : identStart c = false) (h2 : identCont c = false) : c ∉ n := by
  cases n with
  | nil => simp
  | cons a as =>
    have ha : identStart a = true ∧ as.all identCont = true := by
      simpa [isValidIdent, Bool.and_eq_true] using h
    intro hm
    rcases List.mem_cons.mp hm with rfl | hm2
    · rw [ha.1] at h1
      cases h1
    · have hc := (List.all_eq_true.mp ha.2) c hm2
      rw [hc] at h2
      cases h2

theorem caseName_no_nl (n sfx : List Char) (h : isValidIdent n = true)
    (hs : ('\n') ∉ sfx) : ('\n') ∉ tPre ++ n ++ sfx := by
  intro hm
  rcases List.mem_append.mp hm with hm1 | hm2
  · rcases List.mem_append.mp hm1 with hm3 | hm4
    · exact absurd hm3 (by decide)
    · exact valid_no_mem n h '\n' (by decide) (by decide) hm4
  · exact hs hm2

theorem identCont_of_start (c : Char) (h : identStart c = true) :
    identCont c = true := by
  have h2 : c.isAlpha = true ∨ c = '_' := by
    simpa [identStart] using h
  rcases h2 with h1 | rfl
  · simp [identCont, Char.isAlphanum, h1]
  · decide

theorem caseName_valid (n sfx : List Char) (h : isValidIdent n = true)
    (hs : sfx.all identCont = true) :
    isValidIdent (tPre ++ n ++ sfx) = true := by
  cases n with
  | nil => exact absurd h (by decide)
  | cons a as =>
    have ha : identStart a = true ∧ as.all identCont = true := by
      simpa [isValidIdent, Bool.and_eq_true] using h
    have haC : identCont a = true := identCont_of_start a ha.1
    rw [show tPre = 't' :: ("est_").toList from by decide]
    simp [isValidIdent, List.all_append, List.all_cons, haC, ha.2, hs,
      (by decide : identStart 't' = true)]
    all_goals decide

/-! ## Claim C1: stub counts and names with both flags enabled -/

theorem stubNames_blocks (tcs : List TestCase) (rest : List Char)
    (h : ∀ tc ∈ tcs, ('\n') ∉ tc.name ∧ ('\n') ∉ tc.description) :
    (splitLines ((tcs.map renderTestCase).flatten ++ rest)).filterMap lineStubName
      = tcs.map (fun tc => tc.name)
        ++ (splitLines rest).filterMap lineStubName := by
  induction tcs with
  | nil => simp
  | cons tc tcs ih =>
    have h1 := h tc (List.mem_cons_self tc tcs)
    rw [List.map_cons, List.flatten_cons, List.append_assoc,
      stubNames_block tc _ h1.1 h1.2,
      ih (fun t ht => h t (List.mem_cons_of_mem tc ht))]
    simp

theorem stubNames_pubRender (funcs : List FunctionDef) (rest : List Char)
    (hv : ∀ f ∈ funcs, isValidIdent f.name = true) :
    (splitLines ((funcs.map (renderFunction ⟨true, true⟩)).flatten ++ rest)).filterMap
        lineStubName
      = (funcs.map (fun f =>
          [tPre ++ f.name ++ basicSfx, tPre ++ f.name ++ edgeSfx,
            tPre ++ f.name ++ errorSfx])).flatten
        ++ (splitLines rest).filterMap lineStubName := by
  induction funcs with
  | nil => simp
  | cons f fs ih =>
    have hf := hv f (List.mem_cons_self f fs)
    have hrf : renderFunction ⟨true, true⟩ f
        = ([basicCase f, edgeCase f, errorCase f].map renderTestCase).flatten := by
      simp [renderFunction, _generate_test_cases]
    have hcond : ∀ tc ∈ [basicCase f, edgeCase f, errorCase f],
        ('\n') ∉ tc.name ∧ ('\n') ∉ tc.description := by
      intro tc htc
      rcases List.mem_cons.mp htc with rfl | htc2
      · exact ⟨caseName_no_nl f.name basicSfx hf (by decide),
          (by decide : ('\n') ∉ (("Basic functionality test").toList))⟩
      rcases List.mem_cons.mp htc2 with rfl | htc3
      · exact ⟨caseName_no_nl f.name edgeSfx hf (by decide),
          (by decide : ('\n') ∉ (("Edge case handling").toList))⟩
      rcases List.mem_cons.mp htc3 with rfl | htc4
      · exact ⟨caseName_no_nl f.name errorSfx hf (by decide),
          (by decide : ('\n') ∉ (("Error handling test").toList))⟩
      · cases htc4
    rw [List.map_cons, List.flatten_cons, List.append_assoc, hrf,
      stubNames_blocks _ _ hcond,
      ih (fun g hg => hv g (List.mem_cons_of_mem f hg))]
    simp [basicCase, edgeCase, errorCase]

theorem length_flatten_triples {α : Type} (g1 g2 g3 : α → List Char)
    (l : List α) :
    ((l.map (fun f => [g1 f, g2 f, g3 f])).flatten).length = 3 * l.length := by
  induction l with
  | nil => simp
  | cons x xs ih =>
    simp only [List.map_cons, List.flatten_cons, List.length_append, ih,
      List.length_cons, List.length_nil]
    omega

/-- Claim C1: on a parseable file with `N` public (non-underscore)
functions and both `include_edge_cases` and `include_error_cases` true,
the generated document contains exactly 3 × N test stub functions, named
`test_<f>_basic`, `test_<f>_edge_cases`, `test_<f>_error_handling` for
each public function `f`, in order.  The hypotheses are the parse-model
invariant (function names are identifiers) and a source-file name that
does not contain a double quote (so that the document's header docstring
is delimited as intended; see the C6 analysis for what a pathological
name does). -/
theorem stub_names_both_flags (funcs : List FunctionDef) (name : List Char)
    (hq : ('"') ∉ name)
    (hv : ∀ f ∈ funcs, isValidIdent f.name = true) :
    docStubNames (generate_test_file ⟨true, true⟩ name funcs)
      = ((publicFuns funcs).map (fun f =>
        [tPre ++ f.name ++ basicSfx, tPre ++ f.name ++ edgeSfx,
          tPre ++ f.name ++ errorSfx])).flatten
    ∧ (docStubNames (generate_test_file ⟨true, true⟩ name funcs)).length
        = 3 * (publicFuns funcs).length := by
  have hpv : ∀ f ∈ publicFuns funcs, isValidIdent f.name = true := by
    intro f hf
    exact hv f (List.mem_of_mem_filter hf)
  have h1 : docStubNames (generate_test_file ⟨true, true⟩ name funcs)
      = ((publicFuns funcs).map (fun f =>
        [tPre ++ f.name ++ basicSfx, tPre ++ f.name ++ edgeSfx,
          tPre ++ f.name ++ errorSfx])).flatten := by
    rw [gtf_eq, docStubNames_generated name _ hq]
    rw [pubRender, ← List.append_nil (((publicFuns funcs).map
      (renderFunction ⟨true, true⟩)).flatten)]
    rw [stubNames_pubRender (publicFuns funcs) [] hpv]
    simp [(by decide : lineStubName [] = none), splitLines]
  refine ⟨h1, ?_⟩
  rw [h1]
  exact length_flatten_triples _ _ _ (publicFuns funcs)

/-- Witness for C1: a file `calc.py` with one public function `add` and
one private function `_hidden`. -/
theorem stub_names_both_flags_check :
    (('"') ∉ nameW)
    ∧ (docStubNames (generate_test_file ⟨true, true⟩ nameW funcsW)
        = ((publicFuns funcsW).map (fun f =>
          [tPre ++ f.name ++ basicSfx, tPre ++ f.name ++ edgeSfx,
            tPre ++ f.name ++ errorSfx])).flatten
      ∧ (docStubNames (generate_test_file ⟨true, true⟩ nameW funcsW)).length
          = 3 * (publicFuns funcsW).length) :=
  ⟨by decide, stub_names_both_flags funcsW nameW (by decide) (by decide)⟩

/-! ## Claim C6: syntactic validity of the generated document -/

/-- Claim C6 counterexample: a source file named `""".py` (a legal file
name) whose contents parse (here: an empty module) yields a document whose
header docstring is terminated early by the quotes of the file name, so
the document is not syntactically valid: its text is
`"""Tests for """.py"""` followed by the import, in which the trailing
`"""` opens an unterminated string literal. -/
theorem roundtrip_fails_on_quote_name :
    pyFragmentOk (generate_test_file ⟨true, true⟩ (("\"\"\".py").toList) [])
      = false := by
  decide

theorem caseConds (f : FunctionDef) (hf : isValidIdent f.name = true) :
    ∀ tc ∈ [basicCase f, edgeCase f, errorCase f],
      isValidIdent tc.name = true
        ∧ ('\n') ∉ tc.description ∧ ('"') ∉ tc.description := by
  intro tc htc
  rcases List.mem_cons.mp htc with rfl | htc2
  · exact ⟨caseName_valid f.name basicSfx hf (by decide),
      (by decide : ('\n') ∉ (("Basic functionality test").toList)),
      (by decide : ('"') ∉ (("Basic functionality test").toList))⟩
  rcases List.mem_cons.mp htc2 with rfl | htc3
  · exact ⟨caseName_valid f.name edgeSfx hf (by decide),
      (by decide : ('\n') ∉ (("Edge case handling").toList)),
      (by decide : ('"') ∉ (("Edge case handling").toList))⟩
  rcases List.mem_cons.mp htc3 with rfl | htc4
  · exact ⟨caseName_valid f.name errorSfx hf (by decide),
      (by decide : ('\n') ∉ (("Error handling test").toList)),
      (by decide : ('"') ∉ (("Error handling test").toList))⟩
  · cases htc4

theorem linesOk_block (tc : TestCase) (rest : List Char)
    (hn : isValidIdent tc.name = true)
    (hd1 : ('\n') ∉ tc.description) (hd2 : ('"') ∉ tc.description) :
    linesOk LMode.top (splitLines (renderTestCase tc ++ rest))
      = linesOk LMode.top (splitLines rest) := by
  have hnl : ('\n') ∉ tc.name :=
    valid_no_mem tc.name hn '\n' (by decide) (by decide)
  rw [splitLines_block tc rest hnl hd1]
  have hA : lineStubName (defKw ++ (tc.name ++ defLineEnd)) = some tc.name := by
    have h := lineStubName_defLine tc.name
    simpa [List.append_assoc] using h
  have hTop1 : topLine (defKw ++ (tc.name ++ defLineEnd))
      = some LMode.needBody := by
    have hne : ¬ ((defKw ++ (tc.name ++ defLineEnd)).isEmpty = true) := by
      rw [defKw_eq]
      simp
    have hni : ¬ (isImportLine (defKw ++ (tc.name ++ defLineEnd)) = true) := by
      have hpf : hasPfx impKw (defKw ++ (tc.name ++ defLineEnd)) = false := by
        rw [show impKw = 'i' :: ("mport ").toList from by decide, defKw_eq]
        simp [hasPfx]
      simp [isImportLine, hpf]
    have hdl : isDefLine (defKw ++ (tc.name ++ defLineEnd)) = true := by
      simp [isDefLine, hA, hn]
    simp only [topLine, if_neg hne, if_neg hni, if_pos hdl]
  have hds : isDocstringLine (tq ++ (tc.description ++ tq)) = true := by
    have hsc : scanClose (tc.description ++ '"' :: '"' :: '"' :: ([] : List Char))
        = some [] := scanClose_append tc.description [] hd2
    show isDocstringLine ('"' :: '"' :: '"' :: (tc.description ++ tq)) = true
    simp only [isDocstringLine]
    rw [show (tq : List Char) = '"' :: '"' :: '"' :: [] from rfl, hsc]
    rfl
  have hB2 : isBodyLine (sp4q ++ (tc.description ++ tq)) = true := by
    have hpfx : hasPfx sp4 (sp4q ++ (tc.description ++ tq)) = true := by
      rw [show sp4q = sp4 ++ tq from by decide, List.append_assoc]
      exact hasPfx_append sp4 _
    have hdrop : (sp4q ++ (tc.description ++ tq)).drop 4
        = tq ++ (tc.description ++ tq) := by
      rw [show sp4q = sp4 ++ tq from by decide, List.append_assoc,
        show (4 : Nat) = sp4.length from by decide]
      exact List.drop_left sp4 _
    simp [isBodyLine, hpfx, hdrop, hds]
  simp [linesOk, hTop1, hB2,
    (by decide : isBodyLine todoLine = true),
    (by decide : isBodyLine passLine = true),
    (by decide : isBodyLine ([] : List Char) = false),
    (by decide : topLine ([] : List Char) = some LMode.top)]

theorem linesOk_blocks (tcs : List TestCase) (rest : List Char)
    (h : ∀ tc ∈ tcs, isValidIdent tc.name = true
      ∧ ('\n') ∉ tc.description ∧ ('"') ∉ tc.description) :
    linesOk LMode.top (splitLines ((tcs.map renderTestCase).flatten ++ rest))
      = linesOk LMode.top (splitLines rest) := by
  induction tcs with
  | nil => simp
  | cons tc tcs ih =>
    have h1 := h tc (List.mem_cons_self tc tcs)
    rw [List.map_cons, List.flatten_cons, List.append_assoc,
      linesOk_block tc _ h1.1 h1.2.1 h1.2.2,
      ih (fun t ht => h t (List.mem_cons_of_mem tc ht))]

theorem linesOk_renderFunction (cfg : GenerationConfig) (f : FunctionDef)
    (rest : List Char) (hf : isValidIdent f.name = true) :
    linesOk LMode.top (splitLines (renderFunction cfg f ++ rest))
      = linesOk LMode.top (splitLines rest) := by
  have hcond : ∀ tc ∈ _generate_test_cases cfg f,
      isValidIdent tc.name = true
        ∧ ('\n') ∉ tc.description ∧ ('"') ∉ tc.description := by
    intro tc htc
    refine caseConds f hf tc ?_
    cases h1 : cfg.include_edge_cases
      <;> cases h2 : cfg.include_error_cases
      <;> simp [_generate_test_cases, h1, h2] at htc
      <;> simp [htc]
    all_goals (rcases htc with h | h <;> simp [h])
  have h := linesOk_blocks (_generate_test_cases cfg f) rest hcond
  simpa [renderFunction] using h

theorem linesOk_pubRender (cfg : GenerationConfig) (funcs : List FunctionDef)
    (rest : List Char) (hv : ∀ f ∈ funcs, isValidIdent f.name = true) :
    linesOk LMode.top (splitLines ((funcs.map (renderFunction cfg)).flatten ++ rest))
      = linesOk LMode.top (splitLines rest) := by
  induction funcs with
  | nil => simp
  | cons f fs ih =>
    rw [List.map_cons, List.flatten_cons, List.append_assoc,
      linesOk_renderFunction cfg f _ (hv f (List.mem_cons_self f fs)),
      ih (fun g hg => hv g (List.mem_cons_of_mem f hg))]

theorem pyFragmentOk_generated (name R : List Char) (hq : ('"') ∉ name) :
    pyFragmentOk (docHeader name ++ importStmt ++ R)
      = linesOk LMode.top (splitLines R) := by
  have hq2 : ('"') ∉ tFor ++ name := by
    intro hm
    rcases List.mem_append.mp hm with hm1 | hm2
    · exact absurd hm1 (by decide)
    · exact hq hm2
  have hsc : scanClose ((tFor ++ name) ++ '"' :: '"' :: '"'
        :: ('\n' :: '\n' :: (impL ++ '\n' :: ('\n' :: R))))
      = some ('\n' :: '\n' :: (impL ++ '\n' :: ('\n' :: R))) :=
    scanClose_append _ _ hq2
  have hsplit2 : splitLines ('\n' :: (impL ++ '\n' :: ('\n' :: R)))
      = [] :: impL :: [] :: splitLines R := by
    have e2 := splitLines_append [] (impL ++ '\n' :: ('\n' :: R)) (by simp)
    have e3 := splitLines_append impL ('\n' :: R) (by decide)
    have e4 := splitLines_append [] R (by simp)
    simp only [List.nil_append] at e2 e4
    rw [e2, e3, e4]
  rw [doc_decomp]
  simp only [pyFragmentOk, hsc, hsplit2]
  simp [linesOk, (by decide : topLine ([] : List Char) = some LMode.top),
    (by decide : topLine impL = some LMode.top)]

/-- Claim C6 (amended): for every source file whose text parses and whose
name contains no double-quote and no backslash character, the generated
document is syntactically valid: the modelled syntax parser accepts it.
(Function names of a parse result are identifiers, the parse-model
invariant; the no-backslash hypothesis keeps the input inside the region
where the model's string scanning agrees with the target language's
escape handling.) -/
theorem roundtrip_valid_safe_name (cfg : GenerationConfig) (name : List Char)
    (funcs : List FunctionDef)
    (hq : ('"') ∉ name) (_hb : ('\\') ∉ name)
    (hv : ∀ f ∈ funcs, isValidIdent f.name = true) :
    pyFragmentOk (generate_test_file cfg name funcs) = true := by
  have hpv : ∀ f ∈ publicFuns funcs, isValidIdent f.name = true := by
    intro f hf
    exact hv f (List.mem_of_mem_filter hf)
  rw [gtf_eq, pyFragmentOk_generated name _ hq, pubRender,
    ← List.append_nil (((publicFuns funcs).map (renderFunction cfg)).flatten),
    linesOk_pubRender cfg (publicFuns funcs) [] hpv]
  decide

/-- Witness for the amended C6: the `calc.py` fixture is accepted. -/
theorem roundtrip_valid_safe_name_check :
    (('"') ∉ nameW) ∧ (('\\') ∉ nameW)
      ∧ pyFragmentOk (generate_test_file ⟨true, true⟩ nameW funcsW) = true :=
  ⟨by decide, by decide,
    roundtrip_valid_safe_name ⟨true, true⟩ nameW funcsW (by decide) (by decide)
      (by decide)⟩

end Overture
